import Mathlib

/-!
Verification development for the f1-stats aggregation-and-broadcast proxy.

The proxy keeps a single mutable JSON-like state document (`currentState` in
`proxy/server.js`), deep-merges partial updates into it, fans updates out to
SSE subscribers, and maintains per-driver timing lines, bounded message logs
and best-lap tracking across its source adapters (`server.js` replay module,
`live-polling.js`, `mqtt-client.js`).  The definitions below embed those
functions; theorems settle the specified properties.
-/

namespace F1Proxy

/-- JSON-like runtime values, mirroring what the proxy stores in
`currentState`: null, booleans, numbers, strings, arrays, and objects with
insertion-ordered string keys. -/
inductive Val where
  | vnull : Val
  | vbool : Bool → Val
  | vnum : ℚ → Val
  | vstr : String → Val
  | varr : List Val → Val
  | vobj : List (String × Val) → Val
deriving Repr

namespace Val

/-- JS `instanceof Object`: true for arrays and plain objects. -/
def isObjLike : Val → Bool
  | vobj _ => true
  | varr _ => true
  | _ => false

/-- The merge loop's guard: `typeof value === "object" && value !== null &&
!Array.isArray(value)`. -/
def isPlainObj : Val → Bool
  | vobj _ => true
  | _ => false

/-- JS truthiness, as used by `currentState[key] || {}`. -/
def truthy : Val → Bool
  | vnull => false
  | vbool b => b
  | vnum q => q ≠ 0
  | vstr s => s ≠ ""
  | varr _ => true
  | vobj _ => true

end Val

open Val

/-- Entries of an array viewed as a JS object: index keys `"0"`, `"1"`, … -/
def indexEntries : List Val → Nat → List (String × Val)
  | [], _ => []
  | v :: rest, i => (toString i, v) :: indexEntries rest (i + 1)

/-- Own enumerable entries of a value, as produced by the spread
`{ ...target }` (arrays spread to index-keyed objects, primitives to none). -/
def toEntries : Val → List (String × Val)
  | .vobj es => es
  | .varr xs => indexEntries xs 0
  | _ => []

/-- First-match association lookup on object entries (JS property read). -/
def lookupProp {α : Type} : List (String × α) → String → Option α
  | [], _ => none
  | (k', v) :: rest, k => if k' = k then some v else lookupProp rest k

/-- JS property read `v[k]` for the merge-relevant cases. -/
def getProp (v : Val) (k : String) : Option Val :=
  match v with
  | .vobj es => lookupProp es k
  | .varr xs => lookupProp (indexEntries xs 0) k
  | _ => none

/-- JS assignment `o[k] = v` on an entry list: update in place if the key
exists, else append. -/
def setProp {α : Type} : List (String × α) → String → α → List (String × α)
  | [], k, v => [(k, v)]
  | (k', v') :: rest, k, v =>
    if k' = k then (k', v) :: rest else (k', v') :: setProp rest k v

mutual

/-- `deepMerge` from `proxy/server.js`: copies the target's own entries,
then for each key of the source either recurses (when both sides are
`instanceof Object`) or overwrites.  A non-object source never reaches this
function from the merge loop; for it the result is just the spread copy. -/
def deepMergeVal (target source : Val) : Val :=
  match source with
  | .vobj es => .vobj (dmEntries target (toEntries target) es)
  | .varr xs => .vobj (dmArr target (toEntries target) xs 0)
  | _ => .vobj (toEntries target)
termination_by structural source

/-- The key loop of `deepMerge` over a plain-object source's entries. -/
def dmEntries (target : Val) (acc : List (String × Val)) :
    List (String × Val) → List (String × Val)
  | [] => acc
  | (k, sv) :: rest =>
    let v :=
      if sv.isObjLike then
        match getProp target k with
        | some tv => if tv.isObjLike then deepMergeVal tv sv else sv
        | none => sv
      else sv
    dmEntries target (setProp acc k v) rest
termination_by structural l => l

/-- The key loop of `deepMerge` over an array source (keys `"0"`, `"1"`, …). -/
def dmArr (target : Val) (acc : List (String × Val)) :
    List Val → Nat → List (String × Val)
  | [], _ => acc
  | sv :: rest, i =>
    let v :=
      if sv.isObjLike then
        match getProp target (toString i) with
        | some tv => if tv.isObjLike then deepMergeVal tv sv else sv
        | none => sv
      else sv
    dmArr target (setProp acc (toString i) v) rest (i + 1)
termination_by structural l _ => l

end

/-- One iteration of the `ws.on("message")` merge loop of `proxy/server.js`:
object values (non-null, non-array) are deep-merged into the existing entry
(`currentState[key] || {}`), all other values overwrite. -/
def applyUpdateEntry (store : List (String × Val)) (k : String) (v : Val) :
    List (String × Val) :=
  if v.isPlainObj then
    let cur :=
      match lookupProp store k with
      | some c => if c.truthy then c else .vobj []
      | none => .vobj []
    setProp store k (deepMergeVal cur v)
  else
    setProp store k v

/-- The full merge loop: `Object.entries(updates).forEach(...)`. -/
def mergeUpdates (store : List (String × Val)) (updates : List (String × Val)) :
    List (String × Val) :=
  updates.foldl (fun st kv => applyUpdateEntry st kv.1 kv.2) store

/-! ### Basic association-list lemmas for the store -/

theorem lookupProp_setProp_self (l : List (String × Val)) (k : String) (v : Val) :
    lookupProp (setProp l k v) k = some v := by
  induction l with
  | nil => simp [setProp, lookupProp]
  | cons kv rest ih =>
      obtain ⟨k', v'⟩ := kv
      by_cases h : k' = k <;> simp [setProp, lookupProp, h, ih]

theorem lookupProp_setProp_ne (l : List (String × Val)) (k f : String) (v : Val)
    (hne : f ≠ k) : lookupProp (setProp l k v) f = lookupProp l f := by
  induction l with
  | nil => simp [setProp, lookupProp, Ne.symm hne]
  | cons kv rest ih =>
      obtain ⟨k', v'⟩ := kv
      by_cases h : k' = k
      · subst h
        simp [setProp, lookupProp, Ne.symm hne]
      · by_cases h2 : k' = f <;> simp [setProp, lookupProp, h, h2, ih, hne]

theorem setProp_eq_of_lookup (l : List (String × Val)) (k : String) (v : Val)
    (h : lookupProp l k = some v) : setProp l k v = l := by
  induction l with
  | nil => simp [lookupProp] at h
  | cons kv rest ih =>
      obtain ⟨k', v'⟩ := kv
      by_cases hk : k' = k
      · subst hk
        simp [lookupProp] at h
        simp [setProp, h]
      · simp [lookupProp, hk] at h
        simp [setProp, hk, ih h]

theorem lookupProp_eq_none_of_notMem (l : List (String × Val)) (k : String)
    (h : k ∉ l.map Prod.fst) : lookupProp l k = none := by
  induction l with
  | nil => rfl
  | cons kv rest ih =>
      obtain ⟨k', v'⟩ := kv
      simp only [List.map_cons, List.mem_cons, not_or] at h
      simp [lookupProp, Ne.symm h.1, ih h.2]

theorem setProp_append_of_notMem (l : List (String × Val)) (k : String) (v : Val)
    (h : k ∉ l.map Prod.fst) : setProp l k v = l ++ [(k, v)] := by
  induction l with
  | nil => simp [setProp]
  | cons kv rest ih =>
      obtain ⟨k', v'⟩ := kv
      simp only [List.map_cons, List.mem_cons, not_or] at h
      simp [setProp, Ne.symm h.1, ih h.2]

/-- Keys that the `deepMerge` key loop does not visit keep the value they had
in the accumulated result (initially the spread of the target). -/
theorem lookupProp_dmEntries_notMem (t : Val) (acc es : List (String × Val))
    (f : String) (hf : f ∉ es.map Prod.fst) :
    lookupProp (dmEntries t acc es) f = lookupProp acc f := by
  induction es generalizing acc with
  | nil => simp [dmEntries]
  | cons kv rest ih =>
      obtain ⟨k, sv⟩ := kv
      simp only [List.map_cons, List.mem_cons, not_or] at hf
      rw [dmEntries, ih _ hf.2, lookupProp_setProp_ne _ _ _ _ hf.1]

/-- **C1.** Deep-merge non-destructiveness: merging a partial update whose
value at key `k` is an object into a store whose entry at `k` is an object
replaces `k` by the recursive deep-merge of the two objects, and every field
of the stored object that the update does not carry keeps its stored value;
in particular merging `{line:{pos:2}}` into `{line:{pos:1, gap:"5"}}` yields
`{line:{pos:2, gap:"5"}}`. -/
theorem deepMerge_preserves_uncarried_fields
    (store : List (String × Val)) (k f : String)
    (tobj sobj : List (String × Val))
    (hstore : lookupProp store k = some (.vobj tobj))
    (hf : f ∉ sobj.map Prod.fst) :
    lookupProp (mergeUpdates store [(k, .vobj sobj)]) k =
      some (deepMergeVal (.vobj tobj) (.vobj sobj)) ∧
    getProp (deepMergeVal (.vobj tobj) (.vobj sobj)) f = lookupProp tobj f ∧
    mergeUpdates [("line", .vobj [("pos", .vnum 1), ("gap", .vstr "5")])]
      [("line", .vobj [("pos", .vnum 2)])] =
      [("line", .vobj [("pos", .vnum 2), ("gap", .vstr "5")])] := by
  refine ⟨?_, ?_, rfl⟩
  · simp only [mergeUpdates, List.foldl_cons, List.foldl_nil, applyUpdateEntry,
      isPlainObj, hstore, truthy, if_true]
    exact lookupProp_setProp_self _ _ _
  · rw [deepMergeVal]
    show lookupProp (dmEntries (Val.vobj tobj) (toEntries (Val.vobj tobj)) sobj) f =
      lookupProp tobj f
    rw [lookupProp_dmEntries_notMem _ _ _ _ hf]
    rfl

/-- Witness for `deepMerge_preserves_uncarried_fields` at the spec's example:
store `{line:{pos:1, gap:"5"}}`, update `{line:{pos:2}}`, preserved field
`gap`. -/
theorem deepMerge_preserves_uncarried_fields_witness :
    lookupProp
        (mergeUpdates [("line", .vobj [("pos", .vnum 1), ("gap", .vstr "5")])]
          [("line", .vobj [("pos", .vnum 2)])]) "line" =
      some (deepMergeVal (.vobj [("pos", .vnum 1), ("gap", .vstr "5")])
        (.vobj [("pos", .vnum 2)])) ∧
    getProp (deepMergeVal (.vobj [("pos", .vnum 1), ("gap", .vstr "5")])
        (.vobj [("pos", .vnum 2)])) "gap" =
      lookupProp [("pos", .vnum 1), ("gap", .vstr "5")] "gap" ∧
    mergeUpdates [("line", .vobj [("pos", .vnum 1), ("gap", .vstr "5")])]
      [("line", .vobj [("pos", .vnum 2)])] =
      [("line", .vobj [("pos", .vnum 2), ("gap", .vstr "5")])] :=
  deepMerge_preserves_uncarried_fields
    [("line", .vobj [("pos", .vnum 1), ("gap", .vstr "5")])] "line" "gap"
    [("pos", .vnum 1), ("gap", .vstr "5")] [("pos", .vnum 2)] rfl (by simp)

/-! ### Merge idempotence -/

/-- Boolean membership of a key in a key list. -/
def keyMemB (k : String) : List String → Bool
  | [] => false
  | k' :: rest => decide (k' = k) || keyMemB k rest

/-- No key occurs twice (JS object literals cannot carry duplicate keys). -/
def nodupKeysB : List String → Bool
  | [] => true
  | k :: rest => !keyMemB k rest && nodupKeysB rest

theorem keyMemB_iff (k : String) (l : List String) :
    keyMemB k l = true ↔ k ∈ l := by
  induction l with
  | nil => simp [keyMemB]
  | cons k' rest ih =>
      simp only [keyMemB, Bool.or_eq_true, decide_eq_true_eq, ih, List.mem_cons]
      constructor
      · rintro (h | h)
        · exact Or.inl h.symm
        · exact Or.inr h
      · rintro (h | h)
        · exact Or.inl h.symm
        · exact Or.inr h

mutual

/-- Values that round-trip through the merge: plain objects with
duplicate-free keys whose nested values contain no arrays, and scalars. -/
def goodValB : Val → Bool
  | .vobj es => nodupKeysB (es.map Prod.fst) && goodEntriesB es
  | .varr _ => false
  | _ => true
termination_by structural v => v

/-- `goodValB` over an object's entry list. -/
def goodEntriesB : List (String × Val) → Bool
  | [] => true
  | (_, v) :: rest => goodValB v && goodEntriesB rest
termination_by structural l => l

end

theorem lookupProp_self_of_nodup (es : List (String × Val))
    (hnd : nodupKeysB (es.map Prod.fst) = true) :
    ∀ kv ∈ es, lookupProp es kv.1 = some kv.2 := by
  induction es with
  | nil => simp
  | cons kv0 rest ih =>
      obtain ⟨k0, v0⟩ := kv0
      simp only [List.map_cons, nodupKeysB, Bool.and_eq_true,
        Bool.not_eq_true'] at hnd
      intro kv hmem
      rcases List.mem_cons.mp hmem with h | h
      · subst h; simp [lookupProp]
      · have hk : kv.1 ∈ rest.map Prod.fst := List.mem_map_of_mem Prod.fst h
        have hne : k0 ≠ kv.1 := by
          intro he
          rw [he] at hnd
          exact absurd ((keyMemB_iff _ _).mpr hk) (by simp [hnd.1])
        simp [lookupProp, hne, ih hnd.2 kv h]

/-- Merging an object into an empty target is the identity (up to the JS
shallow copy) when the object's keys are duplicate-free. -/
theorem dmEntries_empty_target : ∀ es acc : List (String × Val),
    nodupKeysB (es.map Prod.fst) = true →
    (∀ k ∈ es.map Prod.fst, k ∉ acc.map Prod.fst) →
    dmEntries (.vobj []) acc es = acc ++ es
  | [], acc, _, _ => by rw [dmEntries]; simp
  | (k, sv) :: rest, acc, hnd, hdisj => by
      have hnd' : (!keyMemB k (rest.map Prod.fst) &&
          nodupKeysB (rest.map Prod.fst)) = true := hnd
      rw [Bool.and_eq_true, Bool.not_eq_true'] at hnd'
      rw [dmEntries]
      have hk : k ∉ acc.map Prod.fst := hdisj k (by simp)
      have hv : (if sv.isObjLike then
          match getProp (.vobj []) k with
          | some tv => if tv.isObjLike then deepMergeVal tv sv else sv
          | none => sv
        else sv) = sv := by
        cases sv <;> simp [isObjLike, getProp, lookupProp]
      rw [hv, setProp_append_of_notMem _ _ _ hk]
      have hdisj' : ∀ k' ∈ rest.map Prod.fst,
          k' ∉ (acc ++ [(k, sv)]).map Prod.fst := by
        intro k' hk' hmem
        simp only [List.map_append, List.map_cons, List.map_nil] at hmem
        rcases List.mem_append.mp hmem with h | h
        · exact hdisj k' (by simp [hk']) h
        · simp only [List.mem_cons] at h
          rcases h with h | h
          · rw [h] at hk'
            exact absurd ((keyMemB_iff _ _).mpr hk') (by simp [hnd'.1])
          · simp at h
      rw [dmEntries_empty_target rest (acc ++ [(k, sv)]) hnd'.2 hdisj']
      simp

theorem deepMergeVal_empty_target (es : List (String × Val))
    (hnd : nodupKeysB (es.map Prod.fst) = true) :
    deepMergeVal (.vobj []) (.vobj es) = .vobj es := by
  rw [deepMergeVal]
  rw [show toEntries (Val.vobj []) = [] from rfl]
  rw [dmEntries_empty_target es [] hnd (by simp)]
  simp

mutual

/-- Deep-merging a good plain object into itself is the identity. -/
theorem deepMergeVal_self : ∀ v : Val, goodValB v = true →
    v.isPlainObj = true → deepMergeVal v v = v
  | .vobj es, h, _ => by
      rw [goodValB, Bool.and_eq_true] at h
      rw [deepMergeVal]
      rw [show toEntries (Val.vobj es) = es from rfl]
      rw [dmEntries_self es es h.1 h.2
        (fun kv hkv => lookupProp_self_of_nodup es h.1 kv hkv)]
  | .vnull, _, hobj => by simp [isPlainObj] at hobj
  | .vbool _, _, hobj => by simp [isPlainObj] at hobj
  | .vnum _, _, hobj => by simp [isPlainObj] at hobj
  | .vstr _, _, hobj => by simp [isPlainObj] at hobj
  | .varr _, _, hobj => by simp [isPlainObj] at hobj
termination_by structural v => v

/-- The `deepMerge` key loop leaves the accumulator fixed when every visited
source entry is already present in the target with the same good value. -/
theorem dmEntries_self (tes : List (String × Val)) :
    ∀ es' : List (String × Val), nodupKeysB (tes.map Prod.fst) = true →
      goodEntriesB es' = true →
      (∀ kv ∈ es', lookupProp tes kv.1 = some kv.2) →
      dmEntries (.vobj tes) tes es' = tes
  | [], _, _, _ => by rw [dmEntries]
  | (k, sv) :: rest, hnd, hgood, hsub => by
      rw [goodEntriesB, Bool.and_eq_true] at hgood
      have hlook : lookupProp tes k = some sv := hsub (k, sv) (by simp)
      have hv : (if sv.isObjLike then
          match getProp (.vobj tes) k with
          | some tv => if tv.isObjLike then deepMergeVal tv sv else sv
          | none => sv
        else sv) = sv := by
        cases sv with
        | vobj ses =>
            simp only [isObjLike, if_true, getProp, hlook]
            exact deepMergeVal_self (.vobj ses) hgood.1 rfl
        | varr xs => rw [goodValB] at hgood; cases hgood.1
        | vnull => rfl
        | vbool b => rfl
        | vnum q => rfl
        | vstr s => rfl
      rw [dmEntries, hv, setProp_eq_of_lookup tes k sv hlook]
      exact dmEntries_self tes rest hnd hgood.2 (fun kv hkv => hsub kv (by simp [hkv]))
termination_by structural es' => es'

end

/-- A fold of `applyUpdateEntry` that fixes the store entrywise fixes it. -/
theorem mergeUpdates_fix (store : List (String × Val))
    (p : List (String × Val))
    (h : ∀ kv ∈ p, applyUpdateEntry store kv.1 kv.2 = store) :
    mergeUpdates store p = store := by
  induction p with
  | nil => rfl
  | cons kv rest ih =>
      rw [mergeUpdates, List.foldl_cons, h kv (by simp)]
      exact ih (fun kv' hkv' => h kv' (by simp [hkv']))

/-- Merging an update with fresh, duplicate-free keys and good object values
into a store appends its entries (object values are shallow-copied). -/
theorem mergeUpdates_append :
    ∀ p store : List (String × Val), nodupKeysB (p.map Prod.fst) = true →
      (∀ kv ∈ p, kv.2.isPlainObj = true → goodValB kv.2 = true) →
      (∀ k ∈ p.map Prod.fst, k ∉ store.map Prod.fst) →
      mergeUpdates store p = store ++ p
  | [], store, _, _, _ => by simp [mergeUpdates]
  | (k, v) :: rest, store, hnd, hgood, hdisj => by
      have hnd' : (!keyMemB k (rest.map Prod.fst) &&
          nodupKeysB (rest.map Prod.fst)) = true := hnd
      rw [Bool.and_eq_true, Bool.not_eq_true'] at hnd'
      have hkstore : k ∉ store.map Prod.fst := hdisj k (by simp)
      have hlook : lookupProp store k = none :=
        lookupProp_eq_none_of_notMem store k hkstore
      have hstep : applyUpdateEntry store k v = store ++ [(k, v)] := by
        rw [applyUpdateEntry]
        by_cases hp : v.isPlainObj = true
        · cases v with
          | vobj es =>
              have hgv := hgood (k, .vobj es) (by simp) rfl
              rw [goodValB, Bool.and_eq_true] at hgv
              simp only [isPlainObj, if_true, hlook]
              rw [deepMergeVal_empty_target es hgv.1]
              exact setProp_append_of_notMem _ _ _ hkstore
          | vnull => simp [isPlainObj] at hp
          | vbool b => simp [isPlainObj] at hp
          | vnum q => simp [isPlainObj] at hp
          | vstr s => simp [isPlainObj] at hp
          | varr xs => simp [isPlainObj] at hp
        · rw [if_neg hp]
          exact setProp_append_of_notMem _ _ _ hkstore
      have hdisj' : ∀ k' ∈ rest.map Prod.fst,
          k' ∉ (store ++ [(k, v)]).map Prod.fst := by
        intro k' hk' hmem
        simp only [List.map_append, List.map_cons, List.map_nil] at hmem
        rcases List.mem_append.mp hmem with h | h
        · exact hdisj k' (by simp [hk']) h
        · simp only [List.mem_cons] at h
          rcases h with h | h
          · rw [h] at hk'
            exact absurd ((keyMemB_iff _ _).mpr hk') (by simp [hnd'.1])
          · simp at h
      rw [mergeUpdates, List.foldl_cons, hstep]
      rw [show List.foldl (fun st kv => applyUpdateEntry st kv.1 kv.2)
          (store ++ [(k, v)]) rest =
        mergeUpdates (store ++ [(k, v)]) rest from rfl]
      rw [mergeUpdates_append rest (store ++ [(k, v)]) hnd'.2
        (fun kv hkv hobj => hgood kv (by simp [hkv]) hobj) hdisj']
      simp

/-- **C3 counterexample.** Merging `{a:{x:[1]}}` twice into an empty store
differs from merging it once: `deepMerge` recurses into the pair of equal
nested arrays (`instanceof Object` is true for arrays) and rebuilds the
array as an index-keyed plain object `{"0":1}`. -/
theorem mergeUpdates_not_idempotent_on_nested_array :
    mergeUpdates
        (mergeUpdates [] [("a", Val.vobj [("x", Val.varr [Val.vnum 1])])])
        [("a", Val.vobj [("x", Val.varr [Val.vnum 1])])] ≠
      mergeUpdates [] [("a", Val.vobj [("x", Val.varr [Val.vnum 1])])] := by
  intro h
  have h1 : some (Val.vobj [("x", Val.vobj [("0", Val.vnum 1)])]) =
      some (Val.vobj [("x", Val.varr [Val.vnum 1])]) := by
    calc some (Val.vobj [("x", Val.vobj [("0", Val.vnum 1)])])
        = lookupProp
            (mergeUpdates
              (mergeUpdates [] [("a", Val.vobj [("x", Val.varr [Val.vnum 1])])])
              [("a", Val.vobj [("x", Val.varr [Val.vnum 1])])]) "a" := rfl
      _ = lookupProp
            (mergeUpdates [] [("a", Val.vobj [("x", Val.varr [Val.vnum 1])])])
            "a" := by rw [h]
      _ = some (Val.vobj [("x", Val.varr [Val.vnum 1])]) := rfl
  simp at h1

/-- **C3 (amended).** Merging the same partial update twice into an initially
empty store equals merging it once, provided the update's top-level keys are
duplicate-free and its object-valued entries are duplicate-free objects with
no array nested anywhere inside them.  (Arrays as direct top-level values are
fine; an array nested inside an object-valued entry is rewritten to an
index-keyed plain object by the second merge, as the counterexample shows.) -/
theorem mergeUpdates_idempotent_arrayFree
    (p : List (String × Val))
    (hnd : nodupKeysB (p.map Prod.fst) = true)
    (hvals : ∀ kv ∈ p, kv.2.isPlainObj = true → goodValB kv.2 = true) :
    mergeUpdates (mergeUpdates [] p) p = mergeUpdates [] p := by
  have h1 : mergeUpdates [] p = p := by
    rw [mergeUpdates_append p [] hnd hvals (by simp)]
    simp
  rw [h1]
  apply mergeUpdates_fix
  intro kv hkv
  obtain ⟨k, v⟩ := kv
  have hlook : lookupProp p k = some v :=
    lookupProp_self_of_nodup p hnd (k, v) hkv
  rw [applyUpdateEntry]
  by_cases hp : v.isPlainObj = true
  · have htr : v.truthy = true := by
      cases v <;> simp_all [isPlainObj, truthy]
    simp only [hp, if_true, hlook, htr]
    rw [deepMergeVal_self v (hvals (k, v) hkv hp) hp]
    exact setProp_eq_of_lookup p k v hlook
  · rw [if_neg hp]
    exact setProp_eq_of_lookup p k v hlook

/-- Witness for `mergeUpdates_idempotent_arrayFree`: a two-key update with a
nested object and a top-level array. -/
theorem mergeUpdates_idempotent_arrayFree_witness :
    nodupKeysB
        ([("line", Val.vobj [("pos", Val.vnum 2)]),
          ("seq", Val.varr [Val.vnum 1])].map Prod.fst) = true ∧
    mergeUpdates
        (mergeUpdates []
          [("line", Val.vobj [("pos", Val.vnum 2)]),
           ("seq", Val.varr [Val.vnum 1])])
        [("line", Val.vobj [("pos", Val.vnum 2)]),
         ("seq", Val.varr [Val.vnum 1])] =
      mergeUpdates []
        [("line", Val.vobj [("pos", Val.vnum 2)]),
         ("seq", Val.varr [Val.vnum 1])] := by
  refine ⟨by decide, mergeUpdates_idempotent_arrayFree _ (by decide) ?_⟩
  intro kv hkv hobj
  rcases List.mem_cons.mp hkv with rfl | h
  · rfl
  · rcases List.mem_singleton.mp h with rfl
    simp [isPlainObj] at hobj

/-! ### Message logs: race control and team radio -/

/-- JS `x || "default"` on an optional string field. -/
def jsOrStr (x : Option String) (d : String) : String :=
  match x with
  | some s => if s = "" then d else s
  | none => d

/-- JS `x || null` on an optional string field (empty string is falsy). -/
def jsOrNullStr (x : Option String) : Option String :=
  match x with
  | some s => if s = "" then none else some s
  | none => none

/-- JS `x || null` on an optional numeric field (zero is falsy). -/
def jsOrNullInt (x : Option Int) : Option Int :=
  match x with
  | some i => if i = 0 then none else some i
  | none => none

/-- A race-control record as delivered by the OpenF1 feed. -/
structure RcInput where
  date : String
  category : Option String
  message : String
  flag : Option String
  scope : Option String
  sector : Option Int
  driver_number : Option Int
  lap_number : Option Int
deriving DecidableEq, Repr

/-- A stored race-control message (`RaceControlMessages.Messages` entry). -/
structure RcStored where
  Utc : String
  Category : String
  Message : String
  Flag : Option String
  Scope : Option String
  Sector : Option Int
  DriverNumber : Option Int
  LapNumber : Option Int
deriving DecidableEq, Repr

/-- Build the stored entry from an input record, as all three handlers do. -/
def mkRcStored (m : RcInput) : RcStored :=
  { Utc := m.date
    Category := jsOrStr m.category "Other"
    Message := m.message
    Flag := jsOrNullStr m.flag
    Scope := jsOrNullStr m.scope
    Sector := jsOrNullInt m.sector
    DriverNumber := jsOrNullInt m.driver_number
    LapNumber := jsOrNullInt m.lap_number }

/-- The dedup test of `mqtt-client.js` / `live-polling.js`:
`m.Utc === msg.date && m.Message === msg.message`. -/
def rcKeyMatch (m : RcInput) (e : RcStored) : Bool :=
  decide (e.Utc = m.date) && decide (e.Message = m.message)

/-- The dedup test of the replay module in `server.js`, which compares the
concatenated id strings `` `${m.Utc}_${m.Message}` ``. -/
def rcReplayMatch (m : RcInput) (e : RcStored) : Bool :=
  decide (e.Utc ++ "_" ++ e.Message = m.date ++ "_" ++ m.message)

/-- A team-radio record as delivered by the OpenF1 feed. -/
structure TrInput where
  date : String
  driver_number : Int
  recording_url : String
deriving DecidableEq, Repr

/-- A stored team-radio capture (`TeamRadio.Captures` entry). -/
structure TrStored where
  Utc : String
  RacingNumber : String
  Path : String
deriving DecidableEq, Repr

/-- Build the stored capture from an input record. -/
def mkTrStored (r : TrInput) : TrStored :=
  { Utc := r.date, RacingNumber := toString r.driver_number,
    Path := r.recording_url }

/-- The team-radio dedup test: `r.Path === radio.recording_url`. -/
def trMatch (r : TrInput) (e : TrStored) : Bool :=
  decide (e.Path = r.recording_url)

/-- The shared shape of all message-log handlers: skip if an entry already
matches, else push and, when the bound is exceeded, keep only the last
`bound` entries (`slice(-bound)`). -/
def pushDedupBounded {σ : Type} (p : σ → Bool) (mk : σ) (bound : Nat)
    (l : List σ) : List σ :=
  if l.any p then l
  else if bound < (l ++ [mk]).length then (l ++ [mk]).rtake bound
  else l ++ [mk]

/-- `handleRaceControl` / `processRaceControl` log insertion (bound 50). -/
def pushRaceControl (log : List RcStored) (m : RcInput) : List RcStored :=
  pushDedupBounded (rcKeyMatch m) (mkRcStored m) 50 log

/-- The replay module's race-control log insertion (bound 50, concat id). -/
def pushRaceControlReplay (log : List RcStored) (m : RcInput) : List RcStored :=
  pushDedupBounded (rcReplayMatch m) (mkRcStored m) 50 log

/-- `handleTeamRadio` / `processTeamRadio` capture insertion (bound 30). -/
def pushTeamRadio (caps : List TrStored) (r : TrInput) : List TrStored :=
  pushDedupBounded (trMatch r) (mkTrStored r) 30 caps

/-- The natural key by which race-control messages are deduplicated. -/
def rcKey (m : RcInput) : String × String := (m.date, m.message)

theorem rtake_le_length {α : Type} (l : List α) (n : Nat) :
    (l.rtake n).length ≤ n := by
  rw [List.rtake, List.length_drop]
  omega

theorem rtake_of_length_le {α : Type} (l : List α) (n : Nat)
    (h : l.length ≤ n) : l.rtake n = l := by
  rw [List.rtake, Nat.sub_eq_zero_of_le h, List.drop_zero]

theorem mem_rtake {α : Type} (l : List α) (n : Nat) (a : α)
    (h : a ∈ l.rtake n) : a ∈ l := by
  rw [List.rtake] at h
  exact (List.drop_subset _ l) h

theorem length_rtake {α : Type} (l : List α) (n : Nat) :
    (l.rtake n).length = min n l.length := by
  rw [List.rtake, List.length_drop]
  omega

theorem rtake_append_rtake {α : Type} (l : List α) (x : α) (n : Nat) :
    (l.rtake n ++ [x]).rtake n = (l ++ [x]).rtake n := by
  cases n with
  | zero => simp [List.rtake]
  | succ m =>
      rw [List.rtake_eq_reverse_take_reverse, List.rtake_eq_reverse_take_reverse,
        List.rtake_eq_reverse_take_reverse]
      simp only [List.reverse_append, List.reverse_cons, List.reverse_nil,
        List.nil_append, List.singleton_append, List.take_succ_cons,
        List.reverse_reverse, List.take_take]
      rw [Nat.min_eq_left (Nat.le_succ m)]

theorem length_pushDedupBounded {σ : Type} (p : σ → Bool) (mk : σ)
    (bound : Nat) (l : List σ) (h : l.length ≤ bound) :
    (pushDedupBounded p mk bound l).length ≤ bound := by
  rw [pushDedupBounded]
  split
  · exact h
  · split
    · exact rtake_le_length _ _
    · next hlen => rw [Nat.not_lt] at hlen; exact hlen

theorem foldl_pushDedupBounded_length {σ τ : Type} (p : τ → σ → Bool)
    (mk : τ → σ) (bound : Nat) (msgs : List τ) (l : List σ)
    (h : l.length ≤ bound) :
    (msgs.foldl (fun s m => pushDedupBounded (p m) (mk m) bound s) l).length
      ≤ bound := by
  induction msgs generalizing l with
  | nil => simpa
  | cons m rest ih =>
      exact ih _ (length_pushDedupBounded _ _ _ _ h)

/-- Folding fresh (pairwise non-matching) records from the empty log keeps
exactly the last `bound` built entries, in insertion order. -/
theorem foldl_pushDedupBounded_eq_rtake {σ τ : Type} (p : τ → σ → Bool)
    (mk : τ → σ) (bound : Nat) (msgs : List τ)
    (hfresh : msgs.Pairwise (fun a b => p b (mk a) = false)) :
    msgs.foldl (fun s m => pushDedupBounded (p m) (mk m) bound s) [] =
      (msgs.map mk).rtake bound := by
  induction msgs using List.reverseRecOn with
  | nil => simp [List.rtake]
  | append_singleton msgs m ih =>
      rw [List.pairwise_append] at hfresh
      rw [List.foldl_append, List.foldl_cons, List.foldl_nil, ih hfresh.1]
      rw [pushDedupBounded]
      have hany : ((msgs.map mk).rtake bound).any (p m) = false := by
        rw [List.any_eq_false]
        intro e he
        have hmem := mem_rtake _ _ _ he
        rw [List.mem_map] at hmem
        obtain ⟨a, ha, rfl⟩ := hmem
        simp [hfresh.2.2 a ha m (by simp)]
      rw [if_neg (by simp [hany])]
      by_cases hlen : bound < ((msgs.map mk).rtake bound ++ [mk m]).length
      · rw [if_pos hlen, rtake_append_rtake, List.map_append]
        simp
      · rw [if_neg hlen]
        have h1 : ((msgs.map mk).rtake bound).length + 1 ≤ bound := by
          simpa using hlen
        rw [length_rtake] at h1
        have h2 : (msgs.map mk).length ≤ bound := by omega
        have h3 : ((msgs ++ [m]).map mk).length ≤ bound := by
          rw [List.map_append]
          simp only [List.length_append, List.map_cons, List.map_nil,
            List.length_cons, List.length_nil]
          omega
        rw [rtake_of_length_le _ _ h2, rtake_of_length_le _ _ h3,
          List.map_append]
        simp

/-- **C4.** Both message logs are bounded — at most 50 race-control messages
and 30 team-radio captures after any sequence of submissions from the empty
log — and eviction is FIFO: submitting pairwise-distinct race-control
messages keeps exactly the most recent 50, oldest discarded first, in
insertion order. -/
theorem messageLogs_bounded_fifo :
    (∀ msgs : List RcInput,
      (msgs.foldl pushRaceControl []).length ≤ 50) ∧
    (∀ radios : List TrInput,
      (radios.foldl pushTeamRadio []).length ≤ 30) ∧
    (∀ msgs : List RcInput, (msgs.map rcKey).Nodup →
      msgs.foldl pushRaceControl [] = (msgs.map mkRcStored).rtake 50) := by
  refine ⟨?_, ?_, ?_⟩
  · intro msgs
    exact foldl_pushDedupBounded_length
      (fun m => rcKeyMatch m) mkRcStored 50 msgs [] (by simp)
  · intro radios
    exact foldl_pushDedupBounded_length
      (fun r => trMatch r) mkTrStored 30 radios [] (by simp)
  · intro msgs hnd
    have hfresh : msgs.Pairwise
        (fun a b => rcKeyMatch b (mkRcStored a) = false) := by
      have hpw := List.pairwise_map.mp hnd
      refine hpw.imp ?_
      intro a b hab
      rw [rcKeyMatch, mkRcStored]
      simp only [Bool.and_eq_true, decide_eq_true_eq, Bool.and_eq_false_iff]
      by_cases hd : a.date = b.date
      · have hm : ¬a.message = b.message := by
          intro hm
          exact hab (by rw [rcKey, rcKey, hd, hm])
        exact Or.inr (by simpa using hm)
      · exact Or.inl (by simpa using hd)
    exact foldl_pushDedupBounded_eq_rtake
      (fun m => rcKeyMatch m) mkRcStored 50 msgs hfresh

/-- Sixty race-control messages with pairwise-distinct timestamps. -/
def msgs60 : List RcInput :=
  (List.range 60).map (fun i =>
    { date := "t" ++ toString i, category := none, message := "m",
      flag := none, scope := none, sector := none, driver_number := none,
      lap_number := none })

/-- Witness for `messageLogs_bounded_fifo`: 60 distinct messages leave the
last 50 in insertion order. -/
theorem messageLogs_bounded_fifo_witness :
    (msgs60.map rcKey).Nodup ∧
    msgs60.foldl pushRaceControl [] = (msgs60.map mkRcStored).rtake 50 :=
  ⟨by decide, messageLogs_bounded_fifo.2.2 msgs60 (by decide)⟩

theorem countP_pushDedupBounded_twice {σ : Type} (p : σ → Bool) (mk : σ)
    (bound : Nat) (l : List σ) (hb : 0 < bound)
    (hfresh : ∀ e ∈ l, p e = false) (hself : p mk = true) :
    (pushDedupBounded p mk bound (pushDedupBounded p mk bound l)).countP p
      = 1 := by
  have hany : l.any p = false :=
    List.any_eq_false.mpr (fun e he => by simp [hfresh e he])
  have hcount : (pushDedupBounded p mk bound l).countP p = 1 := by
    rw [pushDedupBounded, if_neg (by simp [hany])]
    split
    · cases bound with
      | zero => omega
      | succ b =>
          rw [List.rtake_concat_succ, List.countP_append]
          have hz : (l.rtake b).countP p = 0 :=
            List.countP_eq_zero.mpr
              (fun e he => by simp [hfresh e (mem_rtake _ _ _ he)])
          simp [hz, hself]
    · rw [List.countP_append]
      have hz : l.countP p = 0 :=
        List.countP_eq_zero.mpr (fun e he => by simp [hfresh e he])
      simp [hz, hself]
  have hmem : (pushDedupBounded p mk bound l).any p = true := by
    rw [List.any_eq_true]
    have hpos : 0 < (pushDedupBounded p mk bound l).countP p := by omega
    exact List.countP_pos_iff.mp hpos
  rw [pushDedupBounded, if_pos hmem]
  exact hcount

/-- **C5.** Submitting the same race-control message twice — to the
pub/sub-or-poller handlers or to the replay handler — stores exactly one
entry matching its natural key, and submitting the same team-radio capture
twice stores exactly one capture with its recording path, provided the log
held no matching entry before. -/
theorem message_dedup_single_entry (log logR : List RcStored)
    (caps : List TrStored) (m : RcInput) (r : TrInput)
    (h1 : ∀ e ∈ log, rcKeyMatch m e = false)
    (h2 : ∀ e ∈ logR, rcReplayMatch m e = false)
    (h3 : ∀ e ∈ caps, trMatch r e = false) :
    (pushRaceControl (pushRaceControl log m) m).countP (rcKeyMatch m) = 1 ∧
    (pushRaceControlReplay (pushRaceControlReplay logR m) m).countP
      (rcReplayMatch m) = 1 ∧
    (pushTeamRadio (pushTeamRadio caps r) r).countP (trMatch r) = 1 := by
  refine ⟨?_, ?_, ?_⟩
  · exact countP_pushDedupBounded_twice _ _ _ _ (by omega) h1
      (by simp [rcKeyMatch, mkRcStored])
  · exact countP_pushDedupBounded_twice _ _ _ _ (by omega) h2
      (by simp [rcReplayMatch, mkRcStored])
  · exact countP_pushDedupBounded_twice _ _ _ _ (by omega) h3
      (by simp [trMatch, mkTrStored])

/-- A sample race-control message for the dedup witness. -/
def rcSample : RcInput :=
  { date := "2024-09-15T11:00:00", category := some "Flag",
    message := "GREEN LIGHT - PIT EXIT OPEN", flag := some "GREEN",
    scope := some "Track", sector := none, driver_number := none,
    lap_number := some 1 }

/-- A sample team-radio capture for the dedup witness. -/
def trSample : TrInput :=
  { date := "2024-09-15T11:05:00", driver_number := 43,
    recording_url := "https://livetiming.formula1.com/tr43.mp3" }

/-- Witness for `message_dedup_single_entry`: duplicate submissions into
empty logs each store exactly one entry. -/
theorem message_dedup_single_entry_witness :
    (∀ e ∈ ([] : List RcStored), rcKeyMatch rcSample e = false) ∧
    ((pushRaceControl (pushRaceControl [] rcSample) rcSample).countP
        (rcKeyMatch rcSample) = 1 ∧
      (pushRaceControlReplay (pushRaceControlReplay [] rcSample)
          rcSample).countP (rcReplayMatch rcSample) = 1 ∧
      (pushTeamRadio (pushTeamRadio [] trSample) trSample).countP
        (trMatch trSample) = 1) :=
  ⟨by simp,
    message_dedup_single_entry [] [] [] rcSample trSample
      (by simp) (by simp) (by simp)⟩

/-! ### Broadcast hub -/

/-- An SSE subscriber connection: `writable` is false when the underlying
transport is already closed, so that `client.write` throws. -/
structure Subscriber where
  id : Nat
  writable : Bool
deriving DecidableEq, Repr

/-- The observable outcome of one `broadcastSSE` call. -/
structure BroadcastResult where
  attempted : List Nat
  delivered : List Nat
  remaining : List Subscriber
deriving DecidableEq, Repr

/-- `broadcastSSE` from `proxy/server.js`: for each registered client, try
to write; on a write failure delete only that client from the set and keep
iterating. -/
def broadcastSSE (clients : List Subscriber) : BroadcastResult :=
  clients.foldl (fun acc c =>
    { attempted := acc.attempted ++ [c.id]
      delivered := if c.writable then acc.delivered ++ [c.id] else acc.delivered
      remaining := if c.writable then acc.remaining ++ [c] else acc.remaining })
    ⟨[], [], []⟩

theorem broadcastSSE_foldl (clients : List Subscriber)
    (acc : BroadcastResult) :
    clients.foldl (fun acc c =>
      { attempted := acc.attempted ++ [c.id]
        delivered :=
          if c.writable then acc.delivered ++ [c.id] else acc.delivered
        remaining :=
          if c.writable then acc.remaining ++ [c] else acc.remaining })
      acc =
    { attempted := acc.attempted ++ clients.map Subscriber.id
      delivered := acc.delivered ++
        (clients.filter Subscriber.writable).map Subscriber.id
      remaining := acc.remaining ++ clients.filter Subscriber.writable } := by
  induction clients generalizing acc with
  | nil => simp
  | cons c rest ih =>
      rw [List.foldl_cons, ih]
      by_cases hw : c.writable = true <;>
        simp [List.filter_cons, hw]

/-- **C7.** `broadcastSSE` attempts a write to every registered subscriber;
a write failure removes only the failing subscriber and never prevents
delivery to the rest: the delivered set is exactly the writable subscribers,
in registration order.  With three subscribers of which the middle one is
closed, the other two still receive the event. -/
theorem broadcast_isolates_failures (clients : List Subscriber) :
    (broadcastSSE clients).attempted = clients.map Subscriber.id ∧
    (broadcastSSE clients).delivered =
      (clients.filter Subscriber.writable).map Subscriber.id ∧
    (broadcastSSE clients).remaining =
      clients.filter Subscriber.writable ∧
    (broadcastSSE [⟨1, true⟩, ⟨2, false⟩, ⟨3, true⟩]).delivered = [1, 3] ∧
    (broadcastSSE [⟨1, true⟩, ⟨2, false⟩, ⟨3, true⟩]).remaining =
      [⟨1, true⟩, ⟨3, true⟩] := by
  refine ⟨?_, ?_, ?_, rfl, rfl⟩ <;>
    rw [broadcastSSE, broadcastSSE_foldl] <;> simp

/-! ### Health endpoint -/

/-- The JSON object returned by `GET /health` in `proxy/server.js`:
`{status: "ok", clients: sseClients.size, hasState:
Object.keys(currentState).length > 0}`. -/
def healthResponseFields (subscriberCount : Nat)
    (state : List (String × Val)) : List (String × Val) :=
  [("status", .vstr "ok"),
   ("clients", .vnum subscriberCount),
   ("hasState", .vbool (decide (0 < state.length)))]

/-- **C8 counterexample.** The health response carries no `mode` field (and
no adapter-availability flags): at a concrete non-empty state with three
subscribers, looking up `mode` finds nothing. -/
theorem healthResponse_no_mode_field :
    lookupProp (healthResponseFields 3 [("TimingData", .vobj [])]) "mode" =
      none ∧
    (healthResponseFields 3 [("TimingData", .vobj [])]).map Prod.fst =
      ["status", "clients", "hasState"] := ⟨rfl, rfl⟩

/-- **C8 (amended).** Every `/health` response is a JSON object with exactly
the fields `status`, `clients` and `hasState` — no `mode` and no per-adapter
availability flags — where `status` is `"ok"`, `clients` is the number of
registered subscribers, and `hasState` is true exactly when the state
document is non-empty. -/
theorem healthResponse_fields (subscriberCount : Nat)
    (state : List (String × Val)) :
    (healthResponseFields subscriberCount state).map Prod.fst =
      ["status", "clients", "hasState"] ∧
    lookupProp (healthResponseFields subscriberCount state) "status" =
      some (.vstr "ok") ∧
    lookupProp (healthResponseFields subscriberCount state) "clients" =
      some (.vnum subscriberCount) ∧
    (lookupProp (healthResponseFields subscriberCount state) "hasState" =
        some (.vbool true) ↔ state ≠ []) := by
  refine ⟨rfl, rfl, rfl, ?_⟩
  cases state <;> simp [healthResponseFields, lookupProp]

/-! ### State clearing on upstream close -/

/-- A tiny heap of state documents, making JS object identity explicit:
`cur` is the address the module variable `currentState` points to, `next`
is the first unused address. -/
structure StateHeap where
  docs : Nat → List (String × Val)
  cur : Nat
  next : Nat

/-- The `ws.on("close")` handler of `proxy/server.js` runs
`currentState = {}`: it rebinds the variable to a freshly allocated empty
object.  The previously referenced object is not modified. -/
def closeHandlerClear (h : StateHeap) : StateHeap :=
  { docs := fun a => if a = h.next then [] else h.docs a
    cur := h.next
    next := h.next + 1 }

/-- **C9 counterexample.** Clearing does not empty the existing document in
place and does not preserve its identity: at a concrete heap whose current
document holds one key, the handler rebinds `currentState` to a different
address, and the old document still holds its key afterwards — a component
retaining the old reference observes the stale, non-empty document. -/
theorem closeHandlerClear_not_in_place :
    (closeHandlerClear
        { docs := fun _ => [("SessionInfo", .vstr "Baku")], cur := 0,
          next := 1 }).cur ≠ 0 ∧
    (closeHandlerClear
        { docs := fun _ => [("SessionInfo", .vstr "Baku")], cur := 0,
          next := 1 }).docs 0 = [("SessionInfo", .vstr "Baku")] :=
  ⟨by decide, rfl⟩

/-- **C9 (amended).** The close handler replaces the state document: the
variable afterwards points to a fresh empty document at a new address, and
every previously allocated document — including the one previously current —
is left unchanged, so prior reference holders observe a stale copy rather
than a freshly-emptied document. -/
theorem closeHandlerClear_rebinds_fresh (h : StateHeap) :
    (closeHandlerClear h).cur = h.next ∧
    (closeHandlerClear h).docs (closeHandlerClear h).cur = [] ∧
    (∀ a, a ≠ h.next → (closeHandlerClear h).docs a = h.docs a) := by
  refine ⟨rfl, by simp [closeHandlerClear], ?_⟩
  intro a ha
  simp [closeHandlerClear, ha]

/-- Witness for `closeHandlerClear_rebinds_fresh` at a concrete heap and the
previously-current address. -/
theorem closeHandlerClear_rebinds_fresh_witness :
    (closeHandlerClear
        { docs := fun _ => [("SessionInfo", .vstr "Baku")], cur := 0,
          next := 1 }).cur = 1 ∧
    ((0 : Nat) ≠ 1 ∧
      (closeHandlerClear
          { docs := fun _ => [("SessionInfo", .vstr "Baku")], cur := 0,
            next := 1 }).docs 0 =
        [("SessionInfo", .vstr "Baku")]) :=
  ⟨(closeHandlerClear_rebinds_fresh
      { docs := fun _ => [("SessionInfo", .vstr "Baku")], cur := 0,
        next := 1 }).1,
    by decide,
    (closeHandlerClear_rebinds_fresh
      { docs := fun _ => [("SessionInfo", .vstr "Baku")], cur := 0,
        next := 1 }).2.2 0 (by decide)⟩

/-! ### Time formatting helpers -/

/-- Decimal digits of a 3-digit fraction part (`toFixed(3)` tail). -/
def pad3 (fp : Nat) : String :=
  if fp < 10 then "00" ++ toString fp
  else if fp < 100 then "0" ++ toString fp
  else toString fp

/-- JS `Number.prototype.toFixed(3)`: round to the nearest thousandth,
preferring the larger value on ties. -/
def toFixed3 (x : ℚ) : String :=
  let n : Int := ⌊x * 1000 + 1 / 2⌋
  (if n < 0 then "-" else "") ++
    toString (n.natAbs / 1000) ++ "." ++ pad3 (n.natAbs % 1000)

/-- JS `String.prototype.padStart(n, c)`. -/
def padStart (s : String) (n : Nat) (c : Char) : String :=
  String.mk (List.replicate (n - s.length) c) ++ s

/-- JS `a % b` on numbers: remainder with the dividend's sign. -/
def jsMod (a b : ℚ) : ℚ :=
  if 0 ≤ a then a - b * ⌊a / b⌋ else -(-a - b * ⌊-a / b⌋)

/-- `formatLapTime` of the replay module in `server.js`: null for falsy
values and times above 300 s, else `M:SS.sss`. -/
def formatLapTime (seconds : ℚ) : Option String :=
  if seconds = 0 ∨ 300 < seconds then none
  else some (toString (⌊seconds / 60⌋ : Int) ++ ":" ++
    padStart (toFixed3 (jsMod seconds 60)) 6 '0')

/-- `formatSectorTime` of the replay module: null for falsy values and
times above 60 s, else `toFixed(3)`. -/
def formatSectorTime (seconds : ℚ) : Option String :=
  if seconds = 0 ∨ 60 < seconds then none
  else some (toFixed3 seconds)

/-- `getSegmentStatus`: map an OpenF1 segment code to a status label. -/
def getSegmentStatus (value : Int) : Option String :=
  if value = 2051 then some "OverallFastest"
  else if value = 2049 then some "PersonalFastest"
  else if value = 2048 then some "Completed"
  else none

/-- The shared `formatLapTime` helper of `live-polling.js` and
`mqtt-client.js`: empty string for falsy values, seconds only when under a
minute. -/
def formatLapTimePoll (seconds : ℚ) : String :=
  if seconds = 0 then ""
  else
    let mins : Int := ⌊seconds / 60⌋
    let secs : String := toFixed3 (jsMod seconds 60)
    if 0 < mins then toString mins ++ ":" ++ padStart secs 6 '0' else secs

/-! ### Replay simulator: per-driver lap processing -/

/-- A lap record from the OpenF1 `/laps` endpoint. -/
structure LapRec where
  driver_number : Int
  lap_number : Int
  lap_duration : Option ℚ
  duration_sector_1 : Option ℚ
  duration_sector_2 : Option ℚ
  duration_sector_3 : Option ℚ
  segments_sector_1 : Option (List Int)
  segments_sector_2 : Option (List Int)
  segments_sector_3 : Option (List Int)
  is_pit_out_lap : Option Bool
deriving DecidableEq, Repr

/-- One sector cell of a replay timing line. -/
structure SectorCell where
  Value : Option String
  Segments : List String
deriving DecidableEq, Repr

/-- A per-driver replay timing line (`state.TimingData.Lines[num]`). -/
structure RLine where
  Line : Int
  Position : String
  GapToLeader : String
  IntervalToPositionAhead : String
  LastLapTime : Option String
  BestLapTime : Option String
  NumberOfLaps : Int
  Sector0 : SectorCell
  Sector1 : SectorCell
  Sector2 : SectorCell
  InPit : Bool
  PitOut : Bool
  Retired : Bool
deriving DecidableEq, Repr

/-- Per-driver replay state: the timing line, the `driverBestLaps[num]`
tracker, and the global `LapCount.CurrentLap` as seen by this driver. -/
structure ReplayDriverState where
  line : RLine
  bestLap : Option ℚ
  currentLap : Int
deriving DecidableEq, Repr

/-- `(lap.segments_sector_k || []).map(getSegmentStatus).filter(Boolean)`. -/
def segmentLabels (segments : Option (List Int)) : List String :=
  (segments.getD []).filterMap getSegmentStatus

/-- `if (lap.lap_number > line.NumberOfLaps) line.NumberOfLaps = ...`:
the replay lap count only moves up (monotonic max). -/
def lapCountStep (line : RLine) (lapNumber : Int) : RLine :=
  if line.NumberOfLaps < lapNumber then { line with NumberOfLaps := lapNumber }
  else line

/-- The `if (lap.lap_duration && lap.lap_duration < 150)` block: set
`LastLapTime`, and update `BestLapTime` plus the `driverBestLaps` tracker
when this lap beats (or first sets) the stored best. -/
def lapTimeStep (line : RLine) (best : Option ℚ) (duration : Option ℚ) :
    RLine × Option ℚ :=
  match duration with
  | some d =>
      if d ≠ 0 ∧ d < 150 then
        let lineA := { line with LastLapTime := formatLapTime d }
        match best with
        | none => ({ lineA with BestLapTime := formatLapTime d }, some d)
        | some b =>
            if d < b then
              ({ lineA with BestLapTime := formatLapTime d }, some d)
            else (lineA, some b)
      else (line, best)
  | none => (line, best)

/-- `if (lap.duration_sector_1) line.Sectors["0"] = {...}`. -/
def sector1Step (line : RLine) (lap : LapRec) : RLine :=
  match lap.duration_sector_1 with
  | some d =>
      if d ≠ 0 then
        { line with Sector0 :=
            { Value := formatSectorTime d,
              Segments := segmentLabels lap.segments_sector_1 } }
      else line
  | none => line

/-- `if (lap.duration_sector_2) line.Sectors["1"] = {...}`. -/
def sector2Step (line : RLine) (lap : LapRec) : RLine :=
  match lap.duration_sector_2 with
  | some d =>
      if d ≠ 0 then
        { line with Sector1 :=
            { Value := formatSectorTime d,
              Segments := segmentLabels lap.segments_sector_2 } }
      else line
  | none => line

/-- `if (lap.duration_sector_3) line.Sectors["2"] = {...}`. -/
def sector3Step (line : RLine) (lap : LapRec) : RLine :=
  match lap.duration_sector_3 with
  | some d =>
      if d ≠ 0 then
        { line with Sector2 :=
            { Value := formatSectorTime d,
              Segments := segmentLabels lap.segments_sector_3 } }
      else line
  | none => line

/-- The body of the replay module's `laps.forEach` in `processData`, for one
lap record of this driver: monotonic-max lap count (mirrored into the global
`LapCount.CurrentLap`), truthy-and-under-150s last/best lap tracking, truthy
sector rewrites, pit flags. -/
def processLapRecord (s : ReplayDriverState) (lap : LapRec) :
    ReplayDriverState :=
  let line1 := lapCountStep s.line lap.lap_number
  let currentLap1 :=
    if s.line.NumberOfLaps < lap.lap_number ∧ s.currentLap < lap.lap_number
    then lap.lap_number else s.currentLap
  let timed := lapTimeStep line1 s.bestLap lap.lap_duration
  let line5 := sector3Step (sector2Step (sector1Step timed.1 lap) lap) lap
  let pit := lap.is_pit_out_lap.getD false
  { line := { line5 with InPit := pit, PitOut := pit }
    bestLap := timed.2
    currentLap := currentLap1 }

/-- The replay line as initialised by `buildInitialState` for a driver on
grid position `gridPosition`. -/
def initialRLine (gridPosition : Int) : RLine :=
  { Line := gridPosition
    Position := toString gridPosition
    GapToLeader := if gridPosition = 1 then "" else "---"
    IntervalToPositionAhead := if gridPosition = 1 then "" else "---"
    LastLapTime := some ""
    BestLapTime := some ""
    NumberOfLaps := 0
    Sector0 := { Value := some "", Segments := [] }
    Sector1 := { Value := some "", Segments := [] }
    Sector2 := { Value := some "", Segments := [] }
    InPit := false
    PitOut := false
    Retired := false }

/-- Per-driver replay state at session start. -/
def initialReplayState (gridPosition : Int) : ReplayDriverState :=
  { line := initialRLine gridPosition, bestLap := none, currentLap := 1 }

/-- The guard `lap.lap_duration && lap.lap_duration < 150`: the duration,
when it is truthy (non-zero) and under 150 s. -/
def qualifies (duration : Option ℚ) : Option ℚ :=
  match duration with
  | some d => if d ≠ 0 ∧ d < 150 then some d else none
  | none => none

/-- The durations the code actually tracks: truthy (non-zero) and under
150 s. -/
def trackedDurations (laps : List LapRec) : List ℚ :=
  laps.filterMap (fun lap => qualifies lap.lap_duration)

/-- The durations the claim describes: any value below 150 s. -/
def claimedDurations (laps : List LapRec) : List ℚ :=
  laps.filterMap (fun lap =>
    match lap.lap_duration with
    | some d => if d < 150 then some d else none
    | none => none)

/-- One step of the best-lap tracker. -/
def minStep (acc : Option ℚ) (d : ℚ) : Option ℚ :=
  match acc with
  | none => some d
  | some b => if d < b then some d else some b

/-- Running minimum of a duration list, in processing order. -/
def runningMin (l : List ℚ) : Option ℚ :=
  l.foldl minStep none

theorem lapCountStep_fields (line : RLine) (n : Int) :
    (lapCountStep line n).Position = line.Position ∧
    (lapCountStep line n).Line = line.Line ∧
    (lapCountStep line n).GapToLeader = line.GapToLeader ∧
    (lapCountStep line n).IntervalToPositionAhead =
      line.IntervalToPositionAhead ∧
    (lapCountStep line n).LastLapTime = line.LastLapTime ∧
    (lapCountStep line n).BestLapTime = line.BestLapTime ∧
    (lapCountStep line n).Sector0 = line.Sector0 ∧
    (lapCountStep line n).Sector1 = line.Sector1 ∧
    (lapCountStep line n).Sector2 = line.Sector2 ∧
    (lapCountStep line n).InPit = line.InPit ∧
    (lapCountStep line n).PitOut = line.PitOut ∧
    (lapCountStep line n).Retired = line.Retired := by
  rw [lapCountStep]
  split <;> simp

theorem lapCountStep_numberOfLaps (line : RLine) (n : Int) :
    (lapCountStep line n).NumberOfLaps = max line.NumberOfLaps n := by
  rw [lapCountStep]
  split <;> simp <;> omega

theorem lapTimeStep_fst_fields (line : RLine) (best duration : Option ℚ) :
    (lapTimeStep line best duration).1.Position = line.Position ∧
    (lapTimeStep line best duration).1.Line = line.Line ∧
    (lapTimeStep line best duration).1.GapToLeader = line.GapToLeader ∧
    (lapTimeStep line best duration).1.IntervalToPositionAhead =
      line.IntervalToPositionAhead ∧
    (lapTimeStep line best duration).1.NumberOfLaps = line.NumberOfLaps ∧
    (lapTimeStep line best duration).1.Sector0 = line.Sector0 ∧
    (lapTimeStep line best duration).1.Sector1 = line.Sector1 ∧
    (lapTimeStep line best duration).1.Sector2 = line.Sector2 ∧
    (lapTimeStep line best duration).1.InPit = line.InPit ∧
    (lapTimeStep line best duration).1.PitOut = line.PitOut ∧
    (lapTimeStep line best duration).1.Retired = line.Retired := by
  cases duration with
  | none => simp [lapTimeStep]
  | some d =>
      cases best with
      | none => by_cases hc : d ≠ 0 ∧ d < 150 <;> simp [lapTimeStep, hc]
      | some b =>
          by_cases hc : d ≠ 0 ∧ d < 150
          · by_cases hlt : d < b <;> simp [lapTimeStep, hc, hlt]
          · simp [lapTimeStep, hc]

theorem lapTimeStep_snd (line : RLine) (best duration : Option ℚ) :
    (lapTimeStep line best duration).2 =
      (match qualifies duration with
        | some d => minStep best d
        | none => best) := by
  cases duration with
  | none => simp [lapTimeStep, qualifies]
  | some d =>
      cases best with
      | none =>
          by_cases hc : d ≠ 0 ∧ d < 150 <;>
            simp [lapTimeStep, qualifies, minStep, hc]
      | some b =>
          by_cases hc : d ≠ 0 ∧ d < 150
          · by_cases hlt : d < b <;>
              simp [lapTimeStep, qualifies, minStep, hc, hlt]
          · simp [lapTimeStep, qualifies, hc]

theorem lapTimeStep_skip (line : RLine) (best : Option ℚ) (d : ℚ)
    (h : ¬(d ≠ 0 ∧ d < 150)) :
    lapTimeStep line best (some d) = (line, best) := by
  simp [lapTimeStep, h]

theorem sector1Step_fields (line : RLine) (lap : LapRec) :
    (sector1Step line lap).Position = line.Position ∧
    (sector1Step line lap).Line = line.Line ∧
    (sector1Step line lap).GapToLeader = line.GapToLeader ∧
    (sector1Step line lap).IntervalToPositionAhead =
      line.IntervalToPositionAhead ∧
    (sector1Step line lap).LastLapTime = line.LastLapTime ∧
    (sector1Step line lap).BestLapTime = line.BestLapTime ∧
    (sector1Step line lap).NumberOfLaps = line.NumberOfLaps ∧
    (sector1Step line lap).Sector1 = line.Sector1 ∧
    (sector1Step line lap).Sector2 = line.Sector2 ∧
    (sector1Step line lap).InPit = line.InPit ∧
    (sector1Step line lap).PitOut = line.PitOut ∧
    (sector1Step line lap).Retired = line.Retired := by
  rw [sector1Step]
  cases lap.duration_sector_1 with
  | none => simp
  | some d => by_cases hd : d = 0 <;> simp [hd]

theorem sector2Step_fields (line : RLine) (lap : LapRec) :
    (sector2Step line lap).Position = line.Position ∧
    (sector2Step line lap).Line = line.Line ∧
    (sector2Step line lap).GapToLeader = line.GapToLeader ∧
    (sector2Step line lap).IntervalToPositionAhead =
      line.IntervalToPositionAhead ∧
    (sector2Step line lap).LastLapTime = line.LastLapTime ∧
    (sector2Step line lap).BestLapTime = line.BestLapTime ∧
    (sector2Step line lap).NumberOfLaps = line.NumberOfLaps ∧
    (sector2Step line lap).Sector0 = line.Sector0 ∧
    (sector2Step line lap).Sector2 = line.Sector2 ∧
    (sector2Step line lap).InPit = line.InPit ∧
    (sector2Step line lap).PitOut = line.PitOut ∧
    (sector2Step line lap).Retired = line.Retired := by
  rw [sector2Step]
  cases lap.duration_sector_2 with
  | none => simp
  | some d => by_cases hd : d = 0 <;> simp [hd]

theorem sector3Step_fields (line : RLine) (lap : LapRec) :
    (sector3Step line lap).Position = line.Position ∧
    (sector3Step line lap).Line = line.Line ∧
    (sector3Step line lap).GapToLeader = line.GapToLeader ∧
    (sector3Step line lap).IntervalToPositionAhead =
      line.IntervalToPositionAhead ∧
    (sector3Step line lap).LastLapTime = line.LastLapTime ∧
    (sector3Step line lap).BestLapTime = line.BestLapTime ∧
    (sector3Step line lap).NumberOfLaps = line.NumberOfLaps ∧
    (sector3Step line lap).Sector0 = line.Sector0 ∧
    (sector3Step line lap).Sector1 = line.Sector1 ∧
    (sector3Step line lap).InPit = line.InPit ∧
    (sector3Step line lap).PitOut = line.PitOut ∧
    (sector3Step line lap).Retired = line.Retired := by
  rw [sector3Step]
  cases lap.duration_sector_3 with
  | none => simp
  | some d => by_cases hd : d = 0 <;> simp [hd]

theorem processLapRecord_bestLap (s : ReplayDriverState) (lap : LapRec) :
    (processLapRecord s lap).bestLap =
      (match qualifies lap.lap_duration with
        | some d => minStep s.bestLap d
        | none => s.bestLap) :=
  lapTimeStep_snd (lapCountStep s.line lap.lap_number) s.bestLap
    lap.lap_duration

theorem foldl_processLapRecord_bestLap (laps : List LapRec)
    (s : ReplayDriverState) :
    (laps.foldl processLapRecord s).bestLap =
      (trackedDurations laps).foldl minStep s.bestLap := by
  induction laps generalizing s with
  | nil => simp [trackedDurations]
  | cons lap rest ih =>
      rw [List.foldl_cons, ih, processLapRecord_bestLap]
      simp only [trackedDurations, List.filterMap_cons]
      cases hq : qualifies lap.lap_duration <;> simp

theorem processLapRecord_numberOfLaps (s : ReplayDriverState) (lap : LapRec) :
    (processLapRecord s lap).line.NumberOfLaps =
      max s.line.NumberOfLaps lap.lap_number := by
  show (sector3Step (sector2Step (sector1Step
      (lapTimeStep (lapCountStep s.line lap.lap_number) s.bestLap
        lap.lap_duration).1 lap) lap) lap).NumberOfLaps = _
  rw [(sector3Step_fields _ _).2.2.2.2.2.2.1,
    (sector2Step_fields _ _).2.2.2.2.2.2.1,
    (sector1Step_fields _ _).2.2.2.2.2.2.1,
    (lapTimeStep_fst_fields _ _ _).2.2.2.2.1,
    lapCountStep_numberOfLaps]

theorem processLapRecord_skip150 (s : ReplayDriverState) (lap : LapRec)
    (d : ℚ) (hd : lap.lap_duration = some d) (h150 : 150 ≤ d) :
    (processLapRecord s lap).line.LastLapTime = s.line.LastLapTime ∧
    (processLapRecord s lap).line.BestLapTime = s.line.BestLapTime ∧
    (processLapRecord s lap).bestLap = s.bestLap := by
  have hc : ¬(d ≠ 0 ∧ d < 150) := by
    rintro ⟨-, hlt⟩
    linarith
  have hskip : lapTimeStep (lapCountStep s.line lap.lap_number) s.bestLap
      lap.lap_duration = (lapCountStep s.line lap.lap_number, s.bestLap) := by
    rw [hd]
    exact lapTimeStep_skip _ _ _ hc
  refine ⟨?_, ?_, ?_⟩
  · show (sector3Step (sector2Step (sector1Step
        (lapTimeStep (lapCountStep s.line lap.lap_number) s.bestLap
          lap.lap_duration).1 lap) lap) lap).LastLapTime = _
    rw [(sector3Step_fields _ _).2.2.2.2.1, (sector2Step_fields _ _).2.2.2.2.1,
      (sector1Step_fields _ _).2.2.2.2.1, hskip,
      (lapCountStep_fields _ _).2.2.2.2.1]
  · show (sector3Step (sector2Step (sector1Step
        (lapTimeStep (lapCountStep s.line lap.lap_number) s.bestLap
          lap.lap_duration).1 lap) lap) lap).BestLapTime = _
    rw [(sector3Step_fields _ _).2.2.2.2.2.1,
      (sector2Step_fields _ _).2.2.2.2.2.1,
      (sector1Step_fields _ _).2.2.2.2.2.1, hskip,
      (lapCountStep_fields _ _).2.2.2.2.2.1]
  · show (lapTimeStep (lapCountStep s.line lap.lap_number) s.bestLap
        lap.lap_duration).2 = _
    rw [hskip]

/-- A lap record for driver 44 with the given lap number and duration and
no sector data. -/
def bareLap (lapNumber : Int) (duration : Option ℚ) : LapRec :=
  { driver_number := 44, lap_number := lapNumber, lap_duration := duration,
    duration_sector_1 := none, duration_sector_2 := none,
    duration_sector_3 := none, segments_sector_1 := none,
    segments_sector_2 := none, segments_sector_3 := none,
    is_pit_out_lap := none }

/-- **C10 counterexample.** A lap record with `lap_duration` 0 is below
150 s, so the claim requires the tracked best to become 0; the code's
truthiness guard (`lap.lap_duration &&`) skips it and the tracked best stays
unset. -/
theorem replay_bestLap_zero_duration_cex :
    ([bareLap 1 (some 0)].foldl processLapRecord
        (initialReplayState 5)).bestLap = none ∧
    runningMin (claimedDurations [bareLap 1 (some 0)]) = some 0 ∧
    ([bareLap 1 (some 0)].foldl processLapRecord
        (initialReplayState 5)).bestLap ≠
      runningMin (claimedDurations [bareLap 1 (some 0)]) := by
  refine ⟨rfl, rfl, by decide⟩

/-- **C10 (amended).** In the replay simulator, the tracked best-lap value
is the running minimum of the non-zero lap durations below 150 s processed
so far (a zero or missing duration is falsy and ignored), so it never
increases across ticks; and a lap record with duration 150 s or more leaves
`LastLapTime`, `BestLapTime` and the tracked best unchanged. -/
theorem replay_bestLap_min_tracking :
    (∀ (laps : List LapRec) (gridPosition : Int),
      (laps.foldl processLapRecord (initialReplayState gridPosition)).bestLap
        = runningMin (trackedDurations laps)) ∧
    (∀ (s : ReplayDriverState) (lap : LapRec) (b : ℚ),
      s.bestLap = some b →
      ∃ b', (processLapRecord s lap).bestLap = some b' ∧ b' ≤ b) ∧
    (∀ (s : ReplayDriverState) (lap : LapRec) (d : ℚ),
      lap.lap_duration = some d → 150 ≤ d →
      (processLapRecord s lap).line.LastLapTime = s.line.LastLapTime ∧
      (processLapRecord s lap).line.BestLapTime = s.line.BestLapTime ∧
      (processLapRecord s lap).bestLap = s.bestLap) := by
  refine ⟨?_, ?_, ?_⟩
  · intro laps gridPosition
    rw [foldl_processLapRecord_bestLap, runningMin]
    rfl
  · intro s lap b hb
    rw [processLapRecord_bestLap]
    cases hq : qualifies lap.lap_duration with
    | none => exact ⟨b, by simp [hb], le_refl b⟩
    | some d =>
        rw [hb]
        by_cases hlt : d < b
        · exact ⟨d, by simp [minStep, hlt], le_of_lt hlt⟩
        · exact ⟨b, by simp [minStep, hlt], le_refl b⟩
  · intro s lap d hd h150
    exact processLapRecord_skip150 s lap d hd h150

/-- Witness for `replay_bestLap_min_tracking`: a stored best of 95 s and an
incoming 200 s lap record. -/
theorem replay_bestLap_min_tracking_witness :
    ([bareLap 1 (some 95)].foldl processLapRecord
        (initialReplayState 3)).bestLap =
      runningMin (trackedDurations [bareLap 1 (some 95)]) ∧
    (∃ b', (processLapRecord
        { line := initialRLine 3, bestLap := some 95, currentLap := 1 }
        (bareLap 2 (some 200))).bestLap = some b' ∧ b' ≤ 95) ∧
    ((processLapRecord
        { line := initialRLine 3, bestLap := some 95, currentLap := 1 }
        (bareLap 2 (some 200))).line.LastLapTime =
      (initialRLine 3).LastLapTime ∧
    (processLapRecord
        { line := initialRLine 3, bestLap := some 95, currentLap := 1 }
        (bareLap 2 (some 200))).line.BestLapTime =
      (initialRLine 3).BestLapTime ∧
    (processLapRecord
        { line := initialRLine 3, bestLap := some 95, currentLap := 1 }
        (bareLap 2 (some 200))).bestLap = some 95) :=
  ⟨replay_bestLap_min_tracking.1 [bareLap 1 (some 95)] 3,
    replay_bestLap_min_tracking.2.1
      { line := initialRLine 3, bestLap := some 95, currentLap := 1 }
      (bareLap 2 (some 200)) 95 rfl,
    replay_bestLap_min_tracking.2.2
      { line := initialRLine 3, bestLap := some 95, currentLap := 1 }
      (bareLap 2 (some 200)) 200 rfl (by norm_num)⟩

/-! ### REST poller (`live-polling.js`): per-driver timing lines -/

/-- Stand-in for the JS `String(x)` conversion on numbers; on the integers
the proxy actually formats it agrees with JS digit for digit. -/
def jsNumberToString (q : ℚ) : String :=
  toString q

/-- `Stints[0]` as written by `processStints`. -/
structure StintCell where
  Compound : Option String
  TotalLaps : Option Int
deriving DecidableEq, Repr

/-- A live-polling timing line.  Fields are absent (`none`) until the first
discipline that writes them arrives — lines start as `{}`. -/
structure PLine where
  Position : Option String
  GapToLeader : Option String
  IntervalToPositionAhead : Option String
  NumberOfLaps : Option Int
  LastLapTime : Option String
  Sector0 : Option String
  Sector1 : Option String
  Sector2 : Option String
  PitOut : Option Bool
  Stints : Option StintCell
  NumberOfPitStops : Option Int
deriving DecidableEq, Repr

/-- `currentStateRef.TimingData.Lines[num] = {}`. -/
def emptyPLine : PLine :=
  { Position := none, GapToLeader := none, IntervalToPositionAhead := none,
    NumberOfLaps := none, LastLapTime := none, Sector0 := none,
    Sector1 := none, Sector2 := none, PitOut := none, Stints := none,
    NumberOfPitStops := none }

/-- The assignment block of `processPositions` for one driver:
`Lines[num].Position = String(data.position)`. -/
def lpApplyPosition (line : PLine) (position : Int) : PLine :=
  { line with Position := some (toString position) }

/-- The assignment block of `processIntervals` for one driver. -/
def lpApplyInterval (line : PLine) (gap interval : Option ℚ) : PLine :=
  { line with
    GapToLeader := some (match gap with
      | some g => jsNumberToString g
      | none => "")
    IntervalToPositionAhead := some (match interval with
      | some i => jsNumberToString i
      | none => "") }

/-- The assignment block of `processLaps` for one driver: overwrites the
lap count, last lap time, sector values and pit-out flag. -/
def lpApplyLap (line : PLine) (data : LapRec) : PLine :=
  { line with
    NumberOfLaps := some data.lap_number
    LastLapTime := some (match data.lap_duration with
      | some d => if d ≠ 0 then formatLapTimePoll d else ""
      | none => "")
    Sector0 := some (match data.duration_sector_1 with
      | some q => if q ≠ 0 then toFixed3 q else ""
      | none => "")
    Sector1 := some (match data.duration_sector_2 with
      | some q => if q ≠ 0 then toFixed3 q else ""
      | none => "")
    Sector2 := some (match data.duration_sector_3 with
      | some q => if q ≠ 0 then toFixed3 q else ""
      | none => "")
    PitOut := some (data.is_pit_out_lap.getD false) }

/-- The assignment block of `processStints` for one driver. -/
def lpApplyStint (line : PLine) (compound : Option String)
    (tyreAge : Option Int) (stintNumber : Int) : PLine :=
  { line with
    Stints := some { Compound := compound, TotalLaps := tyreAge }
    NumberOfPitStops := some (max 0 (stintNumber - 1)) }

/-- `processLaps`' aggregation: keep, per driver, the record with the
strictly greatest `lap_number` seen in this batch (first record wins ties). -/
def lpLatestLaps (laps : List LapRec) : List (String × LapRec) :=
  laps.foldl (fun m l =>
    let num := toString l.driver_number
    match lookupProp m num with
    | none => m ++ [(num, l)]
    | some prev =>
        if prev.lap_number < l.lap_number then setProp m num l else m) []

/-- One `processLaps` call on a batch of lap records: aggregate the batch,
then rewrite each aggregated driver's line. -/
def processLapsLP (lines : List (String × PLine)) (laps : List LapRec) :
    List (String × PLine) :=
  (lpLatestLaps laps).foldl (fun ls kv =>
    let line := (lookupProp ls kv.1).getD emptyPLine
    setProp ls kv.1 (lpApplyLap line kv.2)) lines

/-! ### Pub/sub client (`mqtt-client.js`): scratch data and line rebuild -/

/-- The per-driver scratch structure `driverData[num]`.  `bestLap`, `inPit`,
`pitStops` and `retired` are read by `updateTimingData` but never written by
any handler. -/
structure MDriverData where
  position : Option Int
  positionDate : Option String
  gapToLeader : Option ℚ
  interval : Option ℚ
  lapNumber : Option Int
  lapDuration : Option ℚ
  sector1 : Option ℚ
  sector2 : Option ℚ
  sector3 : Option ℚ
  isPitOutLap : Option Bool
  bestLap : Option ℚ
  inPit : Option Bool
  pitStops : Option Int
  retired : Option Bool
  compound : Option String
  tyreAge : Option Int
  stintNumber : Option Int
  speed : Option ℚ
  rpm : Option ℚ
  gear : Option ℚ
  throttle : Option ℚ
  brake : Option ℚ
  drs : Option ℚ
deriving DecidableEq, Repr

/-- An empty scratch record (`driverData[num] = {}`). -/
def emptyMDriverData : MDriverData :=
  { position := none, positionDate := none, gapToLeader := none,
    interval := none, lapNumber := none, lapDuration := none,
    sector1 := none, sector2 := none, sector3 := none, isPitOutLap := none,
    bestLap := none, inPit := none, pitStops := none, retired := none,
    compound := none, tyreAge := none, stintNumber := none, speed := none,
    rpm := none, gear := none, throttle := none, brake := none, drs := none }

/-- The timing line the pub/sub client rebuilds.  `GapToLeader` and the
interval hold either the raw number or the empty string (`x || ""`),
modelled as `Option ℚ` with `none` for the empty string. -/
structure MLine where
  Position : String
  GapToLeader : Option ℚ
  IntervalToPositionAhead : Option ℚ
  LastLapTime : String
  BestLapTime : String
  Sector0 : String
  Sector1 : String
  Sector2 : String
  NumberOfLaps : Int
  InPit : Bool
  PitOut : Bool
  NumberOfPitStops : Int
  Retired : Bool
deriving DecidableEq, Repr

/-- JS `x || ""` on an optional number (zero and null are falsy). -/
def jsOrEmptyNum (x : Option ℚ) : Option ℚ :=
  match x with
  | some q => if q = 0 then none else some q
  | none => none

/-- `updateTimingData`: rebuild the whole line from the scratch record. -/
def updateTimingData (d : MDriverData) : MLine :=
  { Position := match d.position with
      | some p => if p ≠ 0 then toString p else ""
      | none => ""
    GapToLeader := jsOrEmptyNum d.gapToLeader
    IntervalToPositionAhead := jsOrEmptyNum d.interval
    LastLapTime := match d.lapDuration with
      | some q => if q ≠ 0 then formatLapTimePoll q else ""
      | none => ""
    BestLapTime := match d.bestLap with
      | some q => if q ≠ 0 then formatLapTimePoll q else ""
      | none => ""
    Sector0 := match d.sector1 with
      | some q => if q ≠ 0 then toFixed3 q else ""
      | none => ""
    Sector1 := match d.sector2 with
      | some q => if q ≠ 0 then toFixed3 q else ""
      | none => ""
    Sector2 := match d.sector3 with
      | some q => if q ≠ 0 then toFixed3 q else ""
      | none => ""
    NumberOfLaps := d.lapNumber.getD 0
    InPit := d.inPit.getD false
    PitOut := d.isPitOutLap.getD false
    NumberOfPitStops := d.pitStops.getD 0
    Retired := d.retired.getD false }

/-- `handlePosition`: record the driver's position in the scratch data. -/
def handlePositionM (d : MDriverData) (position : Int) (date : String) :
    MDriverData :=
  { d with position := some position, positionDate := some date }

/-- `handleInterval`: record gap and interval in the scratch data. -/
def handleIntervalM (d : MDriverData) (gap interval : Option ℚ) :
    MDriverData :=
  { d with gapToLeader := gap, interval := interval }

/-- `handleLap`: record the lap fields in the scratch data (an unconditional
overwrite — no monotonic-max guard). -/
def handleLapM (d : MDriverData) (data : LapRec) : MDriverData :=
  { d with
    lapNumber := some data.lap_number
    lapDuration := data.lap_duration
    sector1 := data.duration_sector_1
    sector2 := data.duration_sector_2
    sector3 := data.duration_sector_3
    isPitOutLap := data.is_pit_out_lap }

/-! ### C2: lap-record ordering across adapters -/

/-- **C2 counterexample.** Feeding driver 44 a lap-10 record and then, in a
later batch, a lap-9 record leaves `NumberOfLaps` at 9, not 10: the REST
poller's `processLaps` and the pub/sub client's `handleLap` overwrite the
stored lap count with the latest batch's maximum, with no cross-batch
monotonic-max guard. -/
theorem lap_ordering_regresses_cex :
    (lookupProp (processLapsLP (processLapsLP [] [bareLap 10 none])
        [bareLap 9 none]) "44").map PLine.NumberOfLaps = some (some 9) ∧
    (updateTimingData (handleLapM (handleLapM emptyMDriverData
        (bareLap 10 none)) (bareLap 9 none))).NumberOfLaps = 9 ∧
    ¬ (lookupProp (processLapsLP (processLapsLP [] [bareLap 10 none])
        [bareLap 9 none]) "44").map PLine.NumberOfLaps = some (some 10) := by
  refine ⟨rfl, rfl, by decide⟩

/-- **C2 (amended).** Only the replay simulator's `processData` applies the
monotonic-max policy: its stored lap count is the maximum of the old count
and the incoming `lap_number`, so a lap-10 record followed by a lap-9 record
leaves `NumberOfLaps` at 10.  The REST poller takes the maximum within one
batch only (lap 10 then lap 9 in a single batch also yields 10) but, as the
counterexample shows, overwrites across batches, as does the pub/sub
client. -/
theorem lap_count_monotonic_replay :
    (∀ (s : ReplayDriverState) (lap : LapRec),
      (processLapRecord s lap).line.NumberOfLaps =
        max s.line.NumberOfLaps lap.lap_number) ∧
    ([bareLap 10 none, bareLap 9 none].foldl processLapRecord
        (initialReplayState 5)).line.NumberOfLaps = 10 ∧
    (lookupProp (processLapsLP [] [bareLap 10 none, bareLap 9 none])
        "44").map PLine.NumberOfLaps = some (some 10) := by
  refine ⟨processLapRecord_numberOfLaps, ?_, rfl⟩
  rw [List.foldl_cons, List.foldl_cons, List.foldl_nil,
    processLapRecord_numberOfLaps, processLapRecord_numberOfLaps]
  rfl

/-! ### C6: partial discipline updates never blank unrelated fields -/

/-- The replay module's `positions.forEach` body for one driver:
`line.Line = pos.position; line.Position = String(pos.position)`. -/
def processPositionRecord (line : RLine) (position : Int) : RLine :=
  { line with Line := position, Position := toString position }

theorem processLapRecord_position_fields (s : ReplayDriverState)
    (lap : LapRec) :
    (processLapRecord s lap).line.Position = s.line.Position ∧
    (processLapRecord s lap).line.Line = s.line.Line ∧
    (processLapRecord s lap).line.GapToLeader = s.line.GapToLeader ∧
    (processLapRecord s lap).line.IntervalToPositionAhead =
      s.line.IntervalToPositionAhead := by
  refine ⟨?_, ?_, ?_, ?_⟩
  · show (sector3Step (sector2Step (sector1Step
        (lapTimeStep (lapCountStep s.line lap.lap_number) s.bestLap
          lap.lap_duration).1 lap) lap) lap).Position = _
    rw [(sector3Step_fields _ _).1, (sector2Step_fields _ _).1,
      (sector1Step_fields _ _).1, (lapTimeStep_fst_fields _ _ _).1,
      (lapCountStep_fields _ _).1]
  · show (sector3Step (sector2Step (sector1Step
        (lapTimeStep (lapCountStep s.line lap.lap_number) s.bestLap
          lap.lap_duration).1 lap) lap) lap).Line = _
    rw [(sector3Step_fields _ _).2.1, (sector2Step_fields _ _).2.1,
      (sector1Step_fields _ _).2.1, (lapTimeStep_fst_fields _ _ _).2.1,
      (lapCountStep_fields _ _).2.1]
  · show (sector3Step (sector2Step (sector1Step
        (lapTimeStep (lapCountStep s.line lap.lap_number) s.bestLap
          lap.lap_duration).1 lap) lap) lap).GapToLeader = _
    rw [(sector3Step_fields _ _).2.2.1, (sector2Step_fields _ _).2.2.1,
      (sector1Step_fields _ _).2.2.1, (lapTimeStep_fst_fields _ _ _).2.2.1,
      (lapCountStep_fields _ _).2.2.1]
  · show (sector3Step (sector2Step (sector1Step
        (lapTimeStep (lapCountStep s.line lap.lap_number) s.bestLap
          lap.lap_duration).1 lap) lap) lap).IntervalToPositionAhead = _
    rw [(sector3Step_fields _ _).2.2.2.1, (sector2Step_fields _ _).2.2.2.1,
      (sector1Step_fields _ _).2.2.2.1,
      (lapTimeStep_fst_fields _ _ _).2.2.2.1,
      (lapCountStep_fields _ _).2.2.2.1]

/-- **C6.** In each adapter, a partial update of one discipline leaves the
fields it does not carry unchanged.  Replay: a position record touches only
`Line`/`Position`; a lap record leaves position, gap and interval fields
unchanged.  REST poller: a position assignment touches only `Position`; a
lap assignment leaves position, gap, interval and tire fields unchanged.
Pub/sub client: the line is rebuilt from the retained scratch record, so a
position update changes none of the lap, sector, gap, tire or retirement
outputs, and a lap update changes none of the position or gap outputs. -/
theorem partial_updates_preserve_unrelated_fields :
    (∀ (line : RLine) (position : Int),
      (processPositionRecord line position).GapToLeader = line.GapToLeader ∧
      (processPositionRecord line position).IntervalToPositionAhead =
        line.IntervalToPositionAhead ∧
      (processPositionRecord line position).LastLapTime = line.LastLapTime ∧
      (processPositionRecord line position).BestLapTime = line.BestLapTime ∧
      (processPositionRecord line position).NumberOfLaps =
        line.NumberOfLaps ∧
      (processPositionRecord line position).Sector0 = line.Sector0 ∧
      (processPositionRecord line position).Sector1 = line.Sector1 ∧
      (processPositionRecord line position).Sector2 = line.Sector2 ∧
      (processPositionRecord line position).InPit = line.InPit ∧
      (processPositionRecord line position).PitOut = line.PitOut ∧
      (processPositionRecord line position).Retired = line.Retired) ∧
    (∀ (s : ReplayDriverState) (lap : LapRec),
      (processLapRecord s lap).line.Position = s.line.Position ∧
      (processLapRecord s lap).line.Line = s.line.Line ∧
      (processLapRecord s lap).line.GapToLeader = s.line.GapToLeader ∧
      (processLapRecord s lap).line.IntervalToPositionAhead =
        s.line.IntervalToPositionAhead) ∧
    (∀ (line : PLine) (position : Int),
      (lpApplyPosition line position).GapToLeader = line.GapToLeader ∧
      (lpApplyPosition line position).IntervalToPositionAhead =
        line.IntervalToPositionAhead ∧
      (lpApplyPosition line position).NumberOfLaps = line.NumberOfLaps ∧
      (lpApplyPosition line position).LastLapTime = line.LastLapTime ∧
      (lpApplyPosition line position).Sector0 = line.Sector0 ∧
      (lpApplyPosition line position).Sector1 = line.Sector1 ∧
      (lpApplyPosition line position).Sector2 = line.Sector2 ∧
      (lpApplyPosition line position).PitOut = line.PitOut ∧
      (lpApplyPosition line position).Stints = line.Stints ∧
      (lpApplyPosition line position).NumberOfPitStops =
        line.NumberOfPitStops) ∧
    (∀ (line : PLine) (data : LapRec),
      (lpApplyLap line data).Position = line.Position ∧
      (lpApplyLap line data).GapToLeader = line.GapToLeader ∧
      (lpApplyLap line data).IntervalToPositionAhead =
        line.IntervalToPositionAhead ∧
      (lpApplyLap line data).Stints = line.Stints ∧
      (lpApplyLap line data).NumberOfPitStops = line.NumberOfPitStops) ∧
    (∀ (d : MDriverData) (position : Int) (date : String),
      (updateTimingData (handlePositionM d position date)).LastLapTime =
        (updateTimingData d).LastLapTime ∧
      (updateTimingData (handlePositionM d position date)).BestLapTime =
        (updateTimingData d).BestLapTime ∧
      (updateTimingData (handlePositionM d position date)).Sector0 =
        (updateTimingData d).Sector0 ∧
      (updateTimingData (handlePositionM d position date)).Sector1 =
        (updateTimingData d).Sector1 ∧
      (updateTimingData (handlePositionM d position date)).Sector2 =
        (updateTimingData d).Sector2 ∧
      (updateTimingData (handlePositionM d position date)).NumberOfLaps =
        (updateTimingData d).NumberOfLaps ∧
      (updateTimingData (handlePositionM d position date)).GapToLeader =
        (updateTimingData d).GapToLeader ∧
      (updateTimingData
          (handlePositionM d position date)).IntervalToPositionAhead =
        (updateTimingData d).IntervalToPositionAhead ∧
      (updateTimingData (handlePositionM d position date)).InPit =
        (updateTimingData d).InPit ∧
      (updateTimingData (handlePositionM d position date)).PitOut =
        (updateTimingData d).PitOut ∧
      (updateTimingData (handlePositionM d position date)).NumberOfPitStops =
        (updateTimingData d).NumberOfPitStops ∧
      (updateTimingData (handlePositionM d position date)).Retired =
        (updateTimingData d).Retired) ∧
    (∀ (d : MDriverData) (data : LapRec),
      (updateTimingData (handleLapM d data)).Position =
        (updateTimingData d).Position ∧
      (updateTimingData (handleLapM d data)).GapToLeader =
        (updateTimingData d).GapToLeader ∧
      (updateTimingData (handleLapM d data)).IntervalToPositionAhead =
        (updateTimingData d).IntervalToPositionAhead) := by
  refine ⟨?_, processLapRecord_position_fields, ?_, ?_, ?_, ?_⟩
  · intro line position
    simp [processPositionRecord]
  · intro line position
    simp [lpApplyPosition]
  · intro line data
    simp [lpApplyLap]
  · intro d position date
    simp [updateTimingData, handlePositionM]
  · intro d data
    simp [updateTimingData, handleLapM]

end F1Proxy
